import Mathlib

/-!
Shallow embedding of `src/BaseAPI.py`, a base class for RESTful HTTP API
clients.  Python values are modelled by `PyVal`, Python dictionaries by
insertion-ordered association lists, raised exceptions by `PyExn`, and the
external collaborators (`json.loads`, the `requests` HTTP functions,
`time.time`) are passed in as explicit parameters.  Mutation of the memo
dictionary of `_memoize` and of the payload dictionary of `_put_post_delete`
is modelled by explicit state passing: each operation returns the dictionary
it leaves behind.
-/

mutual

/-- Python values as they occur in this program: `None`, booleans, integers,
strings, lists and string-keyed dictionaries. -/
inductive PyVal where
  | vNone : PyVal
  | vBool : Bool → PyVal
  | vInt : Int → PyVal
  | vStr : String → PyVal
  | vList : PyValList → PyVal
  | vDict : PyValDict → PyVal

/-- A Python list of values. -/
inductive PyValList where
  | nil : PyValList
  | cons : PyVal → PyValList → PyValList

/-- A Python dictionary nested inside a value (e.g. a decoded JSON object),
as an insertion-ordered sequence of key/value pairs. -/
inductive PyValDict where
  | nil : PyValDict
  | cons : String → PyVal → PyValDict → PyValDict

end

deriving instance DecidableEq for PyVal, PyValList, PyValDict

/-- A top-level Python dictionary with string keys (`auth_dict`, payloads,
`kwargs`), as an insertion-ordered association list; real Python dicts never
hold duplicate keys. -/
abbrev PyDict := List (String × PyVal)

/-- Emptiness test for an embedded Python list. -/
def PyValList.isEmpty : PyValList → Bool
  | .nil => true
  | .cons _ _ => false

/-- Emptiness test for an embedded Python dictionary. -/
def PyValDict.isEmpty : PyValDict → Bool
  | .nil => true
  | .cons _ _ _ => false

/-- Lookup in an embedded Python dictionary (first matching key). -/
def PyValDict.get : PyValDict → String → Option PyVal
  | .nil, _ => none
  | .cons a b tl, k => if a = k then some b else PyValDict.get tl k

/-- Python truthiness (`bool(v)`): `None`, `False`, `0`, the empty string and
empty containers are falsy; everything else is truthy. -/
def pyTruthy : PyVal → Bool
  | .vNone => false
  | .vBool b => b
  | .vInt n => n != 0
  | .vStr s => s != ""
  | .vList l => !l.isEmpty
  | .vDict d => !d.isEmpty

/-- One escaped character of a Python string literal under `repr`, with quote
character `q`; printable characters other than the quote, the backslash and
the common control characters pass through unchanged. -/
def pyEscapeChar (q : Char) (c : Char) : String :=
  if c = Char.ofNat 92 then "\\\\"
  else if c = q then "\\" ++ String.singleton q
  else if c = Char.ofNat 10 then "\\n"
  else if c = Char.ofNat 13 then "\\r"
  else if c = Char.ofNat 9 then "\\t"
  else String.singleton c

/-- Python `repr` of a string: single quotes, switching to double quotes when
the string contains a single quote but no double quote. -/
def strRepr (s : String) : String :=
  let sq : Char := Char.ofNat 39
  let dq : Char := Char.ofNat 34
  let q : Char := if s.contains sq && !s.contains dq then dq else sq
  String.singleton q ++ String.join (s.toList.map (pyEscapeChar q)) ++ String.singleton q

mutual

/-- Python `repr` of a value; containers delegate to their elements. -/
def pyRepr : PyVal → String
  | .vNone => "None"
  | .vBool b => if b then "True" else "False"
  | .vInt n => toString n
  | .vStr s => strRepr s
  | .vList l => "[" ++ pyReprList l ++ "]"
  | .vDict d => "\x7b" ++ pyReprDict d ++ "\x7d"

/-- Comma-separated `repr`s of the elements of a Python list. -/
def pyReprList : PyValList → String
  | .nil => ""
  | .cons v .nil => pyRepr v
  | .cons v tl => pyRepr v ++ ", " ++ pyReprList tl

/-- Comma-separated `repr`s of the entries of a Python dictionary. -/
def pyReprDict : PyValDict → String
  | .nil => ""
  | .cons k v .nil => strRepr k ++ ": " ++ pyRepr v
  | .cons k v tl => strRepr k ++ ": " ++ pyRepr v ++ ", " ++ pyReprDict tl

end

/-- Python `str(v)`: the identity on strings, `repr` on everything else. -/
def pyStr : PyVal → String
  | .vStr s => s
  | v => pyRepr v

/-- Exceptions raised by this program: the two exception classes the source
defines (`RateLimitError`, `APIError`), plus the built-in exceptions its code
can raise (`assert`, `ValueError`, subscripting a parsed JSON value, and
failures of the external `json.loads`). -/
inductive PyExn where
  | rateLimitError : String → PyExn
  | apiError : PyVal → PyExn
  | valueError : String → PyExn
  | assertionError : String → PyExn
  | keyError : String → PyExn
  | typeError : String → PyExn
  | jsonDecodeError : PyExn
deriving DecidableEq

/-- Python `d[k]` on a decoded JSON value: a value for a present key of an
object, `KeyError` for an absent key, `TypeError` when the value is not a
dictionary. -/
def pySubscript (v : PyVal) (k : String) : Except PyExn PyVal :=
  match v with
  | .vDict d =>
    match d.get k with
    | some x => Except.ok x
    | none => Except.error (PyExn.keyError k)
  | _ => Except.error (PyExn.typeError "value is not subscriptable")

/-- Lookup in an association list (first matching key), modelling `d[k]` /
`k in d` on a top-level Python dictionary. -/
def alistGet {α β : Type} [DecidableEq α] : List (α × β) → α → Option β
  | [], _ => none
  | (a, b) :: tl, k => if a = k then some b else alistGet tl k

/-- Assignment `d[k] = v` on a top-level Python dictionary: replace the value
at an existing key in place, otherwise append the new pair at the end. -/
def alistSet {α β : Type} [DecidableEq α] : List (α × β) → α → β → List (α × β)
  | [], k, v => [(k, v)]
  | (a, b) :: tl, k, v => if a = k then (k, v) :: tl else (a, b) :: alistSet tl k v

/-- Python `d.update(other)`: assign every entry of `other` into `d`, in
insertion order of `other`. -/
def dictUpdate (d other : PyDict) : PyDict :=
  other.foldl (fun acc kv => alistSet acc kv.1 kv.2) d

/-- The `cache_life` configuration: `float('inf')` (the default) or a finite
number of seconds. -/
inductive CacheLife where
  | fin : ℚ → CacheLife
  | inf : CacheLife
deriving DecidableEq

/-- The comparison `now - timestamp > cache_life` performed by `_memoize`:
an integer age never exceeds an infinite cache life. -/
def exceedsLife (d : Int) : CacheLife → Bool
  | .fin t => decide (t < (d : ℚ))
  | .inf => false

/-- The specification's reading of freshness: the elapsed time is at most the
TTL (an infinite TTL is never exceeded). -/
def CacheLife.withinTTL (d : Int) : CacheLife → Prop
  | .fin t => (d : ℚ) ≤ t
  | .inf => True

instance (d : Int) (life : CacheLife) : Decidable (CacheLife.withinTTL d life) :=
  match life with
  | .fin t => inferInstanceAs (Decidable ((d : ℚ) ≤ t))
  | .inf => inferInstanceAs (Decidable True)

/-- A `requests.Response`: HTTP status code, body text and requested URL. -/
structure Response where
  status_code : Int
  text : String
  url : String
deriving DecidableEq

/-- The state of a `BaseAPI` instance, as set up by `__init__` and mutated by
`set_auth`. -/
structure BaseAPI where
  _api : String
  _rate_limit_status_code : Int
  _auth_dict : PyDict
  _cache_life : CacheLife

/-- The `RateLimitError` constructor: stores
`str(value) + ' Error/Rate Limit Encountered'` in its `value` field. -/
def RateLimitError.init (value : PyVal) : PyExn :=
  PyExn.rateLimitError (pyStr value ++ " Error/Rate Limit Encountered")

/-- The `APIError` constructor: stores the given value unchanged. -/
def APIError.init (value : PyVal) : PyExn :=
  PyExn.apiError value

/-- The method `_check_status(self, response)`, with `json.loads` passed in as
`jl` (returning `none` where the library would raise a decode error).  The
decision table is evaluated in the source's order: 2xx success (asserting a
non-empty body), then the configured rate-limit code, then 401, then
`ValueError`. -/
def BaseAPI._check_status (jl : String → Option PyVal) (self : BaseAPI)
    (response : Response) : Except PyExn Unit :=
  let sc := response.status_code
  if sc.fdiv 100 = 2 then
    if pyTruthy (PyVal.vStr response.text) then Except.ok ()
    else Except.error (PyExn.assertionError "Invalid response from server")
  else if sc = self._rate_limit_status_code then
    Except.error (RateLimitError.init (PyVal.vInt self._rate_limit_status_code))
  else if sc = 401 then
    match jl response.text with
    | none => Except.error PyExn.jsonDecodeError
    | some parsed =>
      match pySubscript parsed "error_msg" with
      | Except.error e => Except.error e
      | Except.ok msg => Except.error (APIError.init msg)
  else
    Except.error (PyExn.valueError
      ("Status code unhandled: " ++ pyStr (PyVal.vInt sc) ++ " for URL " ++ response.url))

/-- The property `_key`: the auth dictionary serialized as
`str(k) + '=' + str(v) + '&'` pairs appended in insertion order (keys are
strings, so `str(k)` is `k` itself). -/
def BaseAPI._key (self : BaseAPI) : String :=
  self._auth_dict.foldl (fun auth_string kv => auth_string ++ kv.1 ++ "=" ++ pyStr kv.2 ++ "&") ""

/-- The URL `_get` passes to `requests.get`: the method first executes
`qstring += self._key` and then requests `self._api + qstring`. -/
def BaseAPI._get_url (self : BaseAPI) (qstring : String) : String :=
  self._api ++ (qstring ++ self._key)

/-- The method `_get(self, qstring)`, with `requests.get` passed in as `http`
and `json.loads` as `jl`: append the auth key to the query string, request
the URL, check the status, and JSON-decode the body. -/
def BaseAPI._get (http : String → Response) (jl : String → Option PyVal)
    (self : BaseAPI) (qstring : String) : Except PyExn PyVal :=
  let response := http (self._get_url qstring)
  match self._check_status jl response with
  | Except.error e => Except.error e
  | Except.ok _ =>
    match jl response.text with
    | none => Except.error PyExn.jsonDecodeError
    | some j => Except.ok j

/-- The method `_put_post_delete(self, endpoint, payload, http_method)`:
`payload.update(self._auth_dict)` mutates the caller's payload in place, the
mutated payload is sent to `http_method`, and the body is JSON-decoded after
a status check.  The second component of the result is the payload
dictionary as the caller observes it after the call. -/
def BaseAPI._put_post_delete (http_method : String → PyDict → Response)
    (jl : String → Option PyVal) (self : BaseAPI) (endpoint : String)
    (payload : PyDict) : Except PyExn PyVal × PyDict :=
  let payload := dictUpdate payload self._auth_dict
  let response := http_method (self._api ++ endpoint) payload
  (match self._check_status jl response with
   | Except.error e => Except.error e
   | Except.ok _ =>
     match jl response.text with
     | none => Except.error PyExn.jsonDecodeError
     | some j => Except.ok j,
   payload)

/-- The method `_param(self, param, value)`: `str(param) + '=' + str(value) + '&'`
when `value` is truthy, the empty string otherwise. -/
def BaseAPI._param (self : BaseAPI) (param value : PyVal) : String :=
  if pyTruthy value then pyStr param ++ "=" ++ pyStr value ++ "&" else ""

/-- The method `set_auth(self, auth)`: replace the auth dictionary wholesale. -/
def BaseAPI.set_auth (self : BaseAPI) (auth : PyDict) : BaseAPI :=
  { self with _auth_dict := auth }

/-- The cache key built by `_memoize`'s wrapper:
`tuple([f, frozenset(kwargs)] + list(args[1:]))`, i.e. the identity of `f`
(modelled as a numeric object id), the frozen set of keyword-argument names,
and the positional arguments after the receiver. -/
structure MemoKey where
  func : Nat
  kwargNames : Finset String
  posArgs : List PyVal
deriving DecidableEq

/-- The memo dictionary of one `_memoize` application, from cache key to the
pair (cached value, timestamp of the call that stored it). -/
abbrev Memo := List (MemoKey × (PyVal × Int))

/-- The names of the keyword arguments actually passed, as the frozen set
`frozenset(kwargs)` (iterating a dict yields its keys). -/
def kwargNameSet (kwargs : PyDict) : Finset String :=
  (kwargs.map Prod.fst).toFinset

/-- Builds the cache key of a memoized call from the object id of `f`, the
positional arguments after the receiver, and the keyword arguments. -/
def mkMemoKey (fid : Nat) (args : List PyVal) (kwargs : PyDict) : MemoKey :=
  ⟨fid, kwargNameSet kwargs, args⟩

/-- One call of the wrapper `memoized(*args, **kwargs)` produced by
`_memoize(f)`: `f` is the wrapped function (with object id `fid`), `memo`
the memo dictionary before the call, `now` the value of `int(time.time())`,
`inst` the receiver `args[0]`.  If the key is absent or its entry has
outlived `inst._cache_life`, `f` is invoked and (on success) its result is
stored with the current timestamp; the stored entry `memo[key][0]` is
returned.  If `f` raises, the assignment to `memo[key]` never executes and
the exception propagates, so the returned memo equals the input memo. -/
def memoized (f : BaseAPI → List PyVal → PyDict → Except PyExn PyVal) (fid : Nat)
    (memo : Memo) (now : Int) (inst : BaseAPI)
    (args : List PyVal) (kwargs : PyDict) : Except PyExn PyVal × Memo :=
  let key := mkMemoKey fid args kwargs
  match alistGet memo key with
  | none =>
    match f inst args kwargs with
    | Except.error e => (Except.error e, memo)
    | Except.ok v => (Except.ok v, alistSet memo key (v, now))
  | some (v, ts) =>
    if exceedsLife (now - ts) inst._cache_life then
      match f inst args kwargs with
      | Except.error e => (Except.error e, memo)
      | Except.ok v2 => (Except.ok v2, alistSet memo key (v2, now))
    else
      (Except.ok v, memo)

/-- A memoized call invokes the underlying function exactly when its key is
absent from the memo or the stored entry has outlived the receiver's
`_cache_life`. -/
def invokesUnderlying (fid : Nat) (memo : Memo) (now : Int) (inst : BaseAPI)
    (args : List PyVal) (kwargs : PyDict) : Prop :=
  match alistGet memo (mkMemoKey fid args kwargs) with
  | none => True
  | some (_, ts) => exceedsLife (now - ts) inst._cache_life = true

instance (fid : Nat) (memo : Memo) (now : Int) (inst : BaseAPI)
    (args : List PyVal) (kwargs : PyDict) :
    Decidable (invokesUnderlying fid memo now inst args kwargs) := by
  unfold invokesUnderlying
  exact match alistGet memo (mkMemoKey fid args kwargs) with
  | none => inferInstanceAs (Decidable True)
  | some (_, ts) => inferInstanceAs (Decidable (_ = true))

/-- The query-string serialization of an auth dictionary as the specification
describes it: the concatenation of `str(key) + '=' + str(value) + '&'` over
the entries in insertion order. -/
def authQueryString : PyDict → String
  | [] => ""
  | (k, v) :: rest => k ++ "=" ++ pyStr v ++ "&" ++ authQueryString rest

theorem alistGet_alistSet_self {α β : Type} [DecidableEq α]
    (d : List (α × β)) (k : α) (v : β) :
    alistGet (alistSet d k v) k = some v := by
  induction d with
  | nil => simp [alistSet, alistGet]
  | cons hd tl ih =>
    obtain ⟨a, b⟩ := hd
    by_cases h : a = k
    · simp [alistSet, alistGet, h]
    · simp [alistSet, alistGet, h, ih]

theorem alistGet_alistSet_ne {α β : Type} [DecidableEq α]
    (d : List (α × β)) (k k' : α) (v : β) (h : k ≠ k') :
    alistGet (alistSet d k v) k' = alistGet d k' := by
  induction d with
  | nil => simp [alistSet, alistGet, h]
  | cons hd tl ih =>
    obtain ⟨a, b⟩ := hd
    by_cases ha : a = k
    · subst ha
      simp [alistSet, alistGet, h]
    · by_cases ha' : a = k'
      · simp [alistSet, alistGet, ha, ha', Ne.symm h]
      · simp [alistSet, alistGet, ha, ha', ih]

theorem alistGet_eq_none_iff {α β : Type} [DecidableEq α]
    (d : List (α × β)) (k : α) :
    alistGet d k = none ↔ k ∉ d.map Prod.fst := by
  induction d with
  | nil => simp [alistGet]
  | cons hd tl ih =>
    obtain ⟨a, b⟩ := hd
    by_cases h : a = k
    · simp [alistGet, h]
    · simp [alistGet, h, ih, Ne.symm h]

theorem alistGet_dictUpdate_of_none (d other : PyDict) (k : String)
    (h : alistGet other k = none) :
    alistGet (dictUpdate d other) k = alistGet d k := by
  induction other generalizing d with
  | nil => rfl
  | cons hd tl ih =>
    obtain ⟨a, b⟩ := hd
    by_cases ha : a = k
    · simp [alistGet, ha] at h
    · rw [alistGet] at h
      simp only [ha, if_false] at h
      simp only [dictUpdate, List.foldl_cons] at *
      rw [ih (alistSet d a b) h, alistGet_alistSet_ne _ _ _ _ ha]

theorem alistGet_dictUpdate_of_some (d other : PyDict) (k : String) (v : PyVal)
    (hnd : (other.map Prod.fst).Nodup) (h : alistGet other k = some v) :
    alistGet (dictUpdate d other) k = some v := by
  induction other generalizing d with
  | nil => simp [alistGet] at h
  | cons hd tl ih =>
    obtain ⟨a, b⟩ := hd
    simp only [List.map_cons, List.nodup_cons] at hnd
    by_cases ha : a = k
    · subst ha
      have hb : b = v := by simpa [alistGet] using h
      subst hb
      have htl : alistGet tl a = none := (alistGet_eq_none_iff tl a).mpr hnd.1
      simp only [dictUpdate, List.foldl_cons]
      have hfold : List.foldl (fun acc kv => alistSet acc kv.1 kv.2) (alistSet d a b) tl
          = dictUpdate (alistSet d a b) tl := rfl
      rw [hfold, alistGet_dictUpdate_of_none _ _ _ htl, alistGet_alistSet_self]
    · rw [alistGet] at h
      simp only [ha, if_false] at h
      simp only [dictUpdate, List.foldl_cons] at *
      exact ih (alistSet d a b) hnd.2 h

theorem withinTTL_iff_not_exceedsLife (d : Int) (life : CacheLife) :
    CacheLife.withinTTL d life ↔ exceedsLife d life = false := by
  cases life with
  | fin t =>
    simp [CacheLife.withinTTL, exceedsLife, not_lt]
  | inf =>
    simp [CacheLife.withinTTL, exceedsLife]

theorem key_foldl_eq_authQueryString (d : PyDict) (acc : String) :
    d.foldl (fun auth_string kv => auth_string ++ kv.1 ++ "=" ++ pyStr kv.2 ++ "&") acc
      = acc ++ authQueryString d := by
  induction d generalizing acc with
  | nil => simp [authQueryString]
  | cons hd tl ih =>
    obtain ⟨k, v⟩ := hd
    simp only [List.foldl_cons, authQueryString, ih]
    simp [String.append_assoc]

theorem key_eq_authQueryString (self : BaseAPI) :
    self._key = authQueryString self._auth_dict := by
  rw [BaseAPI._key, key_foldl_eq_authQueryString]
  simp

theorem mkMemoKey_eq_of_nameSet (fid : Nat) (args : List PyVal) (kw1 kw2 : PyDict)
    (h : kwargNameSet kw1 = kwargNameSet kw2) :
    mkMemoKey fid args kw1 = mkMemoKey fid args kw2 := by
  simp [mkMemoKey, h]

/-- A concrete client configuration used by witnesses: default rate-limit
code 403, a ten-second cache life, one auth entry. -/
def apiW : BaseAPI := ⟨"http://x/", 403, [("token", PyVal.vStr "abc")], CacheLife.fin 10⟩

/-- A client whose configured rate-limit status code is 200, a 2xx value. -/
def api200 : BaseAPI := ⟨"http://x/", 200, [], CacheLife.inf⟩

/-- A stand-in for `json.loads` that fails on every body. -/
def jlNoneW : String → Option PyVal := fun _ => none

/-- A stand-in for `json.loads` decoding the body
`{"error_msg": "invalid token"}`. -/
def jlAuthW : String → Option PyVal := fun s =>
  if s = "\x7b\x22error_msg\x22: \x22invalid token\x22\x7d" then
    some (PyVal.vDict (PyValDict.cons "error_msg" (PyVal.vStr "invalid token") PyValDict.nil))
  else none

/-- C4: for every response whose status code `s` satisfies `s // 100 == 2`,
`_check_status` returns normally when the body is non-empty, and fails the
non-empty-body assertion with message `Invalid response from server` when the
body is empty. -/
theorem check_status_2xx_success_or_assert (jl : String → Option PyVal)
    (self : BaseAPI) (r : Response) (h2 : r.status_code.fdiv 100 = 2) :
    (r.text ≠ "" → self._check_status jl r = Except.ok ()) ∧
    (r.text = "" → self._check_status jl r
        = Except.error (PyExn.assertionError "Invalid response from server")) := by
  constructor
  · intro hne
    simp [BaseAPI._check_status, h2, pyTruthy, hne]
  · intro he
    simp [BaseAPI._check_status, h2, pyTruthy, he]

/-- Witness for C4 at status 204: a non-empty body succeeds, an empty body
trips the assertion. -/
theorem check_status_2xx_success_or_assert_witness :
    (BaseAPI._check_status jlNoneW apiW ⟨204, "ok", "u"⟩ = Except.ok ()) ∧
    (BaseAPI._check_status jlNoneW apiW ⟨204, "", "u"⟩
        = Except.error (PyExn.assertionError "Invalid response from server")) :=
  ⟨(check_status_2xx_success_or_assert jlNoneW apiW ⟨204, "ok", "u"⟩ (by decide)).1
      (by decide),
   (check_status_2xx_success_or_assert jlNoneW apiW ⟨204, "", "u"⟩ (by decide)).2 rfl⟩

/-- C5: for every response with status code 401, when the configured
rate-limit code is not 401 and the body decodes to a JSON object containing
the field `error_msg`, `_check_status` raises `APIError` carrying that
message. -/
theorem check_status_401_raises_api_error (jl : String → Option PyVal)
    (self : BaseAPI) (r : Response) (d : PyValDict) (m : PyVal)
    (h401 : r.status_code = 401)
    (hrl : self._rate_limit_status_code ≠ 401)
    (hjson : jl r.text = some (PyVal.vDict d))
    (hmsg : d.get "error_msg" = some m) :
    self._check_status jl r = Except.error (APIError.init m) := by
  have h2 : (401 : Int).fdiv 100 ≠ 2 := by decide
  simp [BaseAPI._check_status, h401, h2, Ne.symm hrl, hjson, pySubscript, hmsg]

/-- Witness for C5: a 401 response with body decoding to
`{"error_msg": "invalid token"}` yields `APIError("invalid token")` under the
default rate-limit code 403. -/
theorem check_status_401_raises_api_error_witness :
    BaseAPI._check_status jlAuthW apiW
        ⟨401, "\x7b\x22error_msg\x22: \x22invalid token\x22\x7d", "u"⟩
      = Except.error (PyExn.apiError (PyVal.vStr "invalid token")) :=
  check_status_401_raises_api_error jlAuthW apiW
    ⟨401, "\x7b\x22error_msg\x22: \x22invalid token\x22\x7d", "u"⟩
    (PyValDict.cons "error_msg" (PyVal.vStr "invalid token") PyValDict.nil)
    (PyVal.vStr "invalid token") rfl (by decide) rfl rfl

/-- C6: for every response whose status code is not 2xx, not the configured
rate-limit code and not 401, `_check_status` raises `ValueError` carrying the
status code and the request URL. -/
theorem check_status_unhandled_value_error (jl : String → Option PyVal)
    (self : BaseAPI) (r : Response)
    (h2 : r.status_code.fdiv 100 ≠ 2)
    (hrl : r.status_code ≠ self._rate_limit_status_code)
    (h401 : r.status_code ≠ 401) :
    self._check_status jl r = Except.error (PyExn.valueError
      ("Status code unhandled: " ++ pyStr (PyVal.vInt r.status_code)
        ++ " for URL " ++ r.url)) := by
  simp [BaseAPI._check_status, h2, hrl, h401]

/-- Witness for C6: a response with status 500 and url `http://x/y` yields
`ValueError("Status code unhandled: 500 for URL http://x/y")`. -/
theorem check_status_unhandled_value_error_witness :
    BaseAPI._check_status jlNoneW apiW ⟨500, "b", "http://x/y"⟩
      = Except.error (PyExn.valueError "Status code unhandled: 500 for URL http://x/y") :=
  check_status_unhandled_value_error jlNoneW apiW ⟨500, "b", "http://x/y"⟩
    (by decide) (by decide) (by decide)

/-- C3 counterexample: with the rate-limit status code configured as 200, a
response whose status equals that configured code takes the 2xx success
branch and raises nothing, instead of raising `RateLimitError`. -/
theorem rate_limit_shadowed_by_2xx_counterexample :
    api200._rate_limit_status_code = 200 ∧
    BaseAPI._check_status jlNoneW api200 ⟨200, "ok", "u"⟩ = Except.ok () :=
  ⟨rfl, rfl⟩

/-- C3 amended: for every configured rate-limit status code that is not a 2xx
code, every response whose status equals that configured code makes
`_check_status` raise `RateLimitError` carrying that code, regardless of the
body content. -/
theorem check_status_rate_limit_error (jl : String → Option PyVal)
    (self : BaseAPI) (r : Response)
    (hrl : r.status_code = self._rate_limit_status_code)
    (h2 : self._rate_limit_status_code.fdiv 100 ≠ 2) :
    self._check_status jl r
      = Except.error (RateLimitError.init (PyVal.vInt self._rate_limit_status_code)) := by
  simp [BaseAPI._check_status, hrl, h2]

/-- Witness for the amended C3: a 403 response under the default
configuration yields `RateLimitError(403)`, whose stored message is
`403 Error/Rate Limit Encountered`. -/
theorem check_status_rate_limit_error_witness :
    BaseAPI._check_status jlNoneW apiW ⟨403, "whatever body", "u"⟩
      = Except.error (PyExn.rateLimitError "403 Error/Rate Limit Encountered") :=
  check_status_rate_limit_error jlNoneW apiW ⟨403, "whatever body", "u"⟩ rfl (by decide)

/-- An HTTP stand-in answering every URL with status 200 and body `RESPBODY`. -/
def httpOkW : String → Response := fun u => ⟨200, "RESPBODY", u⟩

/-- A stand-in for `json.loads` decoding the body `RESPBODY` to the number 5. -/
def jlBodyW : String → Option PyVal := fun s =>
  if s = "RESPBODY" then some (PyVal.vInt 5) else none

/-- C8: `_get(qstring)` requests `base_url + qstring + A` where `A`
concatenates `str(key) + '=' + str(value) + '&'` over the auth entries in
insertion order; after `set_auth({"token": "abc"})` the built query string
ends in `token=abc&`; on a successful response `_get` returns the
JSON-decoded body. -/
theorem get_appends_auth_and_decodes (http : String → Response)
    (jl : String → Option PyVal) (self : BaseAPI) (qstring : String) (j : PyVal) :
    (self._get_url qstring
        = self._api ++ qstring ++ authQueryString self._auth_dict) ∧
    ((self.set_auth [("token", PyVal.vStr "abc")])._get_url qstring
        = self._api ++ qstring ++ "token=abc&") ∧
    (self._check_status jl (http (self._get_url qstring)) = Except.ok () →
      jl (http (self._get_url qstring)).text = some j →
      self._get http jl qstring = Except.ok j) := by
  refine ⟨?_, ?_, ?_⟩
  · rw [BaseAPI._get_url, key_eq_authQueryString, String.append_assoc]
  · rw [BaseAPI._get_url, key_eq_authQueryString, String.append_assoc]
    rfl
  · intro hok hj
    rw [BaseAPI._get, hok, hj]

/-- Witness for C8 after `set_auth({"token": "abc"})`: the requested URL is
the base URL plus the query string plus `token=abc&`, and the decoded body is
returned. -/
theorem get_appends_auth_and_decodes_witness :
    ((apiW.set_auth [("token", PyVal.vStr "abc")])._get_url "q=1&"
        = "http://x/" ++ "q=1&" ++ "token=abc&") ∧
    apiW._get httpOkW jlBodyW "q=1&" = Except.ok (PyVal.vInt 5) :=
  ⟨(get_appends_auth_and_decodes httpOkW jlBodyW apiW "q=1&" (PyVal.vInt 5)).2.1,
   (get_appends_auth_and_decodes httpOkW jlBodyW apiW "q=1&" (PyVal.vInt 5)).2.2
     rfl rfl⟩

/-- C9: `_param(name, value)` yields `str(name) + '=' + str(value) + '&'`
exactly when `value` is truthy and the empty string exactly when it is falsy;
in particular `_param("limit", 10) = "limit=10&"` and
`_param("q", 0) = _param("q", "") = ""`. -/
theorem param_truthy_format_falsy_empty (self : BaseAPI) (name value : PyVal) :
    (pyTruthy value = true →
      self._param name value = pyStr name ++ "=" ++ pyStr value ++ "&") ∧
    (self._param name value = "" ↔ pyTruthy value = false) ∧
    self._param (PyVal.vStr "limit") (PyVal.vInt 10) = "limit=10&" ∧
    self._param (PyVal.vStr "q") (PyVal.vInt 0) = "" ∧
    self._param (PyVal.vStr "q") (PyVal.vStr "") = "" := by
  refine ⟨?_, ⟨?_, ?_⟩, rfl, rfl, rfl⟩
  · intro h
    simp [BaseAPI._param, h]
  · intro h
    by_contra hb
    rw [Bool.not_eq_false] at hb
    rw [BaseAPI._param, if_pos hb] at h
    have hlen := congrArg String.length h
    simp [String.length_append] at hlen
    exact absurd hlen.2 (by decide)
  · intro h
    simp [BaseAPI._param, h]

/-- Witness for C9 at a truthy value: `_param("limit", 10)` is `limit=10&`,
and the truthy branch agrees with the formatted string. -/
theorem param_truthy_format_falsy_empty_witness :
    apiW._param (PyVal.vStr "limit") (PyVal.vInt 10)
      = pyStr (PyVal.vStr "limit") ++ "=" ++ pyStr (PyVal.vInt 10) ++ "&" :=
  (param_truthy_format_falsy_empty apiW (PyVal.vStr "limit") (PyVal.vInt 10)).1 rfl

/-- A payload colliding with the auth dictionary on the key `token`. -/
def payloadW : PyDict := [("a", PyVal.vInt 1), ("token", PyVal.vStr "old")]

/-- An HTTP stand-in for `requests.put`/`post`/`delete`. -/
def methW : String → PyDict → Response := fun u _ => ⟨200, "RESPBODY", u⟩

/-- C10: `_put_post_delete` merges the auth parameters into the caller's
payload dictionary by in-place mutation (modelled as the returned
dictionary): on a key present in the auth dictionary the auth value wins,
every other key keeps the payload's value, and after the call the caller's
dictionary is the merged one. -/
theorem put_post_delete_merges_auth_into_payload
    (http_method : String → PyDict → Response) (jl : String → Option PyVal)
    (self : BaseAPI) (endpoint : String) (payload : PyDict)
    (hnd : (self._auth_dict.map Prod.fst).Nodup) :
    ((self._put_post_delete http_method jl endpoint payload).2
        = dictUpdate payload self._auth_dict) ∧
    (∀ k v, alistGet self._auth_dict k = some v →
      alistGet (self._put_post_delete http_method jl endpoint payload).2 k = some v) ∧
    (∀ k, alistGet self._auth_dict k = none →
      alistGet (self._put_post_delete http_method jl endpoint payload).2 k
        = alistGet payload k) := by
  refine ⟨rfl, ?_, ?_⟩
  · intro k v hk
    exact alistGet_dictUpdate_of_some payload self._auth_dict k v hnd hk
  · intro k hk
    exact alistGet_dictUpdate_of_none payload self._auth_dict k hk

/-- Witness for C10: with payload `{a: 1, token: "old"}` and auth
`{token: "abc"}`, the caller's dictionary afterwards holds the auth value for
`token` and the original value for `a`. -/
theorem put_post_delete_merges_auth_into_payload_witness :
    (alistGet (apiW._put_post_delete methW jlBodyW "ep" payloadW).2 "token"
        = some (PyVal.vStr "abc")) ∧
    (alistGet (apiW._put_post_delete methW jlBodyW "ep" payloadW).2 "a"
        = alistGet payloadW "a") :=
  ⟨(put_post_delete_merges_auth_into_payload methW jlBodyW apiW "ep" payloadW
      (by decide)).2.1 "token" (PyVal.vStr "abc") rfl,
   (put_post_delete_merges_auth_into_payload methW jlBodyW apiW "ep" payloadW
      (by decide)).2.2 "a" rfl⟩

/-- An underlying function that returns the string `fresh`. -/
def fFreshW : BaseAPI → List PyVal → PyDict → Except PyExn PyVal :=
  fun _ _ _ => Except.ok (PyVal.vStr "fresh")

/-- An underlying function that returns the string `other`. -/
def gOtherW : BaseAPI → List PyVal → PyDict → Except PyExn PyVal :=
  fun _ _ _ => Except.ok (PyVal.vStr "other")

/-- An underlying function that raises `ValueError("boom")`. -/
def fErrW : BaseAPI → List PyVal → PyDict → Except PyExn PyVal :=
  fun _ _ _ => Except.error (PyExn.valueError "boom")

/-- A memo holding one entry, stored at time 100 for a no-keyword call with
the single positional argument `"x"`. -/
def memoW : Memo := [(mkMemoKey 0 [PyVal.vStr "x"] [], (PyVal.vStr "old", 100))]

/-- C1: with TTL read from the receiver's `_cache_life` at call time, if a
call at time `T` stored an entry `(v, T)`, then a repeated call at `T + Δ`
with the same receiver-excluded positional arguments and the same
keyword-argument names returns the stored value without invoking the
underlying function (for every underlying function `g`) iff `Δ ≤ t`; when
`Δ > t` it invokes the underlying function again and replaces the stored
entry with the fresh value and the new timestamp. -/
theorem memoize_ttl_expiry (f : BaseAPI → List PyVal → PyDict → Except PyExn PyVal)
    (fid : Nat) (memo : Memo) (T Δ : Int) (inst : BaseAPI)
    (args : List PyVal) (kw1 kw2 : PyDict) (v : PyVal)
    (hnames : kwargNameSet kw2 = kwargNameSet kw1)
    (hstored : alistGet memo (mkMemoKey fid args kw1) = some (v, T)) :
    (CacheLife.withinTTL Δ inst._cache_life →
      ∀ g, memoized g fid memo (T + Δ) inst args kw2 = (Except.ok v, memo)) ∧
    (¬ CacheLife.withinTTL Δ inst._cache_life →
      ∀ v2, f inst args kw2 = Except.ok v2 →
        memoized f fid memo (T + Δ) inst args kw2
          = (Except.ok v2, alistSet memo (mkMemoKey fid args kw1) (v2, T + Δ))) := by
  have hkey : mkMemoKey fid args kw2 = mkMemoKey fid args kw1 :=
    mkMemoKey_eq_of_nameSet fid args kw2 kw1 hnames
  constructor
  · intro hin g
    have hex : exceedsLife Δ inst._cache_life = false :=
      (withinTTL_iff_not_exceedsLife Δ inst._cache_life).mp hin
    simp [memoized, hkey, hstored, hex]
  · intro hout v2 hf
    have hex : exceedsLife Δ inst._cache_life = true := by
      by_contra hb
      rw [Bool.not_eq_true] at hb
      exact hout ((withinTTL_iff_not_exceedsLife Δ inst._cache_life).mpr hb)
    simp [memoized, hkey, hstored, hex, hf]

/-- Witness for C1 with TTL 10 and an entry stored at time 100: at time 110
the cached value is returned for any underlying function, at time 111 the
underlying function runs again and the entry is refreshed. -/
theorem memoize_ttl_expiry_witness :
    (memoized gOtherW 0 memoW (100 + 10) apiW [PyVal.vStr "x"] []
        = (Except.ok (PyVal.vStr "old"), memoW)) ∧
    (memoized fFreshW 0 memoW (100 + 11) apiW [PyVal.vStr "x"] []
        = (Except.ok (PyVal.vStr "fresh"),
           alistSet memoW (mkMemoKey 0 [PyVal.vStr "x"] [])
             (PyVal.vStr "fresh", 100 + 11))) :=
  ⟨(memoize_ttl_expiry fFreshW 0 memoW 100 10 apiW [PyVal.vStr "x"] [] []
      (PyVal.vStr "old") rfl rfl).1 (by decide) gOtherW,
   (memoize_ttl_expiry fFreshW 0 memoW 100 11 apiW [PyVal.vStr "x"] [] []
      (PyVal.vStr "old") rfl rfl).2 (by decide) (PyVal.vStr "fresh") rfl⟩

/-- C2: the cache key is built only from the function's identity, the
receiver-excluded positional arguments and the set of keyword-argument
names, never the keyword-argument values: two calls with the same positional
arguments and keyword names yield the same key, and after a first call
cached `v`, a second call within the TTL with different keyword-argument
values (and any underlying function `g`) still returns `v` from the cache. -/
theorem memoize_kwarg_values_not_keyed
    (f g : BaseAPI → List PyVal → PyDict → Except PyExn PyVal) (fid : Nat)
    (memo0 : Memo) (T Δ : Int) (inst : BaseAPI)
    (args : List PyVal) (kw1 kw2 : PyDict) (v : PyVal)
    (hnames : kwargNameSet kw1 = kwargNameSet kw2)
    (hmiss : alistGet memo0 (mkMemoKey fid args kw1) = none)
    (hf : f inst args kw1 = Except.ok v)
    (httl : CacheLife.withinTTL Δ inst._cache_life) :
    mkMemoKey fid args kw1 = mkMemoKey fid args kw2 ∧
    memoized f fid memo0 T inst args kw1
      = (Except.ok v, alistSet memo0 (mkMemoKey fid args kw1) (v, T)) ∧
    memoized g fid (alistSet memo0 (mkMemoKey fid args kw1) (v, T)) (T + Δ)
        inst args kw2
      = (Except.ok v, alistSet memo0 (mkMemoKey fid args kw1) (v, T)) := by
  have hkey : mkMemoKey fid args kw1 = mkMemoKey fid args kw2 :=
    mkMemoKey_eq_of_nameSet fid args kw1 kw2 hnames
  refine ⟨hkey, ?_, ?_⟩
  · simp [memoized, hmiss, hf]
  · have hget : alistGet (alistSet memo0 (mkMemoKey fid args kw1) (v, T))
        (mkMemoKey fid args kw2) = some (v, T) := by
      rw [← hkey]
      exact alistGet_alistSet_self memo0 (mkMemoKey fid args kw1) (v, T)
    have hex : exceedsLife Δ inst._cache_life = false :=
      (withinTTL_iff_not_exceedsLife Δ inst._cache_life).mp httl
    simp [memoized, hget, hex]

/-- Witness for C2: a first call with `limit=10` caches `v1`; a second call
within the TTL passing `limit=99` (and a different underlying function)
returns the cached `v1`. -/
theorem memoize_kwarg_values_not_keyed_witness :
    memoized gOtherW 0
        (alistSet [] (mkMemoKey 0 [] [("limit", PyVal.vInt 10)])
          (PyVal.vStr "fresh", 100))
        (100 + 5) apiW [] [("limit", PyVal.vInt 99)]
      = (Except.ok (PyVal.vStr "fresh"),
         alistSet [] (mkMemoKey 0 [] [("limit", PyVal.vInt 10)])
           (PyVal.vStr "fresh", 100)) :=
  (memoize_kwarg_values_not_keyed fFreshW gOtherW 0 [] 100 5 apiW []
    [("limit", PyVal.vInt 10)] [("limit", PyVal.vInt 99)] (PyVal.vStr "fresh")
    rfl rfl rfl (by decide)).2.2

/-- C7: when a memoized call invokes the underlying function and the
underlying function raises, the memo dictionary is left exactly as it was
before the call and the exception propagates unchanged. -/
theorem memoize_error_leaves_memo_unchanged
    (f : BaseAPI → List PyVal → PyDict → Except PyExn PyVal) (fid : Nat)
    (memo : Memo) (now : Int) (inst : BaseAPI)
    (args : List PyVal) (kwargs : PyDict) (e : PyExn)
    (hf : f inst args kwargs = Except.error e)
    (hinv : invokesUnderlying fid memo now inst args kwargs) :
    memoized f fid memo now inst args kwargs = (Except.error e, memo) := by
  cases hm : alistGet memo (mkMemoKey fid args kwargs) with
  | none =>
    simp [memoized, hm, hf]
  | some p =>
    obtain ⟨v, ts⟩ := p
    rw [invokesUnderlying, hm] at hinv
    simp [memoized, hm, hinv, hf]

/-- Witness for C7: an expired entry plus an underlying `ValueError("boom")`
leaves the one-entry memo unchanged and propagates the error. -/
theorem memoize_error_leaves_memo_unchanged_witness :
    memoized fErrW 0 memoW 200 apiW [PyVal.vStr "x"] []
      = (Except.error (PyExn.valueError "boom"), memoW) :=
  memoize_error_leaves_memo_unchanged fErrW 0 memoW 200 apiW [PyVal.vStr "x"] []
    (PyExn.valueError "boom") rfl (by decide)
